import Mathlib

/-!
# Verification of the RAFT Governor Core specification against its source

This development shallowly embeds the parts of the `raft` repository that the
spec's testable claims are about, and proves or refutes each claim.

Modelling conventions:
* Python `float` values are modelled as exact rationals (`ℚ`).  Every claim
  settled below is robust to this choice: all decisive comparisons are far
  from the rounding error of IEEE doubles.
* Python exceptions are modelled with `Except String`; a raised exception is
  `Except.error`.
* Python dictionaries are modelled as association lists with insert-or-
  overwrite semantics, preserving insertion order (CPython dict order).
* External effectful facilities (the Z3 solver, `json.loads`, the Redis
  cache) are passed to the embedded functions as explicit function
  parameters; the embedded control flow around them follows the source.
-/

/-! ## Python value model (`agent/core/smt_verifier.py` return values)

`verify` in the source returns a Python `dict`.  The governor tests that
value with `if ok:`, i.e. Python truthiness.  We model just enough of the
Python data model to capture that behaviour. -/

/-- A Python runtime value, as far as the governor's control flow needs it. -/
inductive PyVal where
  | pyBool : Bool → PyVal
  | pyInt : ℤ → PyVal
  | pyRat : ℚ → PyVal
  | pyStr : String → PyVal
  | pyNone : PyVal
  | pyDict : List (String × PyVal) → PyVal

/-- Python truthiness: `bool(x)`.  A *non-empty* dict is truthy regardless of
its contents; this is what `if ok:` in `governor.run_one_cycle` evaluates. -/
def pyTruthy : PyVal → Bool
  | .pyBool b => b
  | .pyInt n => n ≠ 0
  | .pyRat q => q ≠ 0
  | .pyStr s => s ≠ ""
  | .pyNone => false
  | .pyDict es => !es.isEmpty

/-- CPython dict assignment `d[k] = v`: overwrite in place if the key exists
(keeping its position), else append. -/
def dictUpsert {α : Type} (d : List (String × α)) (k : String) (v : α) :
    List (String × α) :=
  if d.any (fun p => p.1 == k) then
    d.map (fun p => if p.1 == k then (k, v) else p)
  else d ++ [(k, v)]

/-- CPython dict membership `k in d`. -/
def dictHasKey {α : Type} (d : List (String × α)) (k : String) : Bool :=
  d.any (fun p => p.1 == k)

/-- CPython dict lookup `d.get(k)`. -/
def dictLookup {α : Type} (d : List (String × α)) (k : String) : Option α :=
  (d.find? (fun p => p.1 == k)).map (fun p => p.2)

/-! ## Drift monitor (`agent/core/drift_monitor.py`)

State: a `deque(maxlen=window_size)` of ρ samples plus two thresholds.
`record` appends the new sample *first* and only then evaluates the drift
statistics, raising `DriftAlert` on a strict threshold exceedance. -/

/-- The context carried by a raised `DriftAlert`. -/
structure DriftAlertCtx where
  mean_drift : ℚ
  max_drift : ℚ
  window : List ℚ
deriving Repr, DecidableEq

/-- `DriftMonitor` state: `window_size`, the two thresholds and the deque of
retained ρ values (`self._values`). -/
structure DriftMonitor where
  window_size : ℕ
  mean_threshold : ℚ
  max_threshold : ℚ
  values : List ℚ
deriving Repr, DecidableEq

/-- `collections.deque(maxlen=W)` append: push right, evicting from the left
whatever exceeds the capacity. -/
def dequeAppend (W : ℕ) (xs : List ℚ) (v : ℚ) : List ℚ :=
  (xs ++ [v]).drop (xs.length + 1 - W)

/-- `DriftMonitor.__init__` validation (`window_size` must be ≥ 2); the
thresholds are stored unvalidated, exactly as in the source. -/
def DriftMonitor.init (W : ℕ) (tm tx : ℚ) : Except String DriftMonitor :=
  if W < 2 then .error "window_size must be at least 2 to compute drift"
  else .ok ⟨W, tm, tx, []⟩

/-- The default monitor: `DRIFT_WINDOW` unset (→ 10), thresholds 0.05 / 0.10. -/
def DriftMonitor.mkDefault : DriftMonitor := ⟨10, 1/20, 1/10, []⟩

/-- `[abs(v[i] - v[i-1]) for i in range(1, len(v))]`. -/
def diffsQ (l : List ℚ) : List ℚ :=
  List.zipWith (fun a b => |b - a|) l l.tail

/-- `statistics.mean` (exact, over ℚ). -/
def meanQ (l : List ℚ) : ℚ := l.sum / (l.length : ℚ)

/-- Python `max` over a non-empty list (we never apply it to `[]`;
the `[]` case is given a junk value `0` for totality). -/
def maxQ : List ℚ → ℚ
  | [] => 0
  | x :: t => t.foldl max x

/-- `DriftMonitor.record(rho)`: append to the deque; if fewer than two
samples, return; otherwise compute consecutive absolute differences and
raise `DriftAlert(context)` when `mean_drift > mean_threshold` **or**
`max_drift > max_threshold` (strict).  The raised alert is returned as
`some ctx`; note the appended value stays in the window either way. -/
def DriftMonitor.record (m : DriftMonitor) (rho : ℚ) :
    DriftMonitor × Option DriftAlertCtx :=
  let vs := dequeAppend m.window_size m.values rho
  let m' : DriftMonitor := { m with values := vs }
  if vs.length < 2 then (m', none)
  else
    let ds := diffsQ vs
    let meanDrift := meanQ ds
    let maxDrift := maxQ ds
    if meanDrift > m.mean_threshold ∨ maxDrift > m.max_threshold then
      (m', some ⟨meanDrift, maxDrift, vs⟩)
    else (m', none)

/-- `current_window`: a copy of the retained values. -/
def DriftMonitor.current_window (m : DriftMonitor) : List ℚ := m.values

/-- Feed a sequence of samples, one `record` call per value, collecting the
alert (if any) raised by each call.  Recording continues after an alert,
modelling a caller that catches `DriftAlert` and keeps the monitor. -/
def runRecords (m : DriftMonitor) (xs : List ℚ) :
    DriftMonitor × List (Option DriftAlertCtx) :=
  xs.foldl (fun acc v =>
    let r := acc.1.record v
    (r.1, acc.2 ++ [r.2])) (m, [])

/-! ## Config store (`agent/core/config_store.py`)

`update_config` builds the merged candidate, validates it with the pydantic
`ConfigValidator` (`rho_max ∈ (0,1)` strict, `energy_multiplier ∈ [1,4]`),
and only after successful validation assigns the global `_config` and
persists it.  A validation failure raises before any mutation. -/

/-- The runtime configuration record (`Config` dataclass). -/
structure Config where
  rho_max : ℚ
  energy_multiplier : ℚ
deriving Repr, DecidableEq

/-- `ConfigValidator`: `rho_max` has `gt=0, lt=1`; `energy_multiplier` has
`ge=1, le=4`. -/
def configValid (c : Config) : Bool :=
  (0 < c.rho_max && c.rho_max < 1) &&
  (1 ≤ c.energy_multiplier && c.energy_multiplier ≤ 4)

/-- `Config.validate()` raising `ValueError` on an invalid field. -/
def Config.validate (c : Config) : Except String Unit :=
  if configValid c then .ok ()
  else .error "Configuration validation failed"

/-- A partial update (`updates` dict restricted to the two known fields,
with numeric values). -/
structure ConfigUpdates where
  rho_max : Option ℚ := none
  energy_multiplier : Option ℚ := none

/-- `asdict(_config); new_values.update(updates); Config(**new_values)`. -/
def applyUpdates (c : Config) (u : ConfigUpdates) : Config :=
  { rho_max := u.rho_max.getD c.rho_max
    energy_multiplier := u.energy_multiplier.getD c.energy_multiplier }

/-- `yaml.safe_dump(asdict(_config))`: keys are emitted sorted
(`energy_multiplier` before `rho_max`), one `key: value` line each. -/
def yamlDump (c : Config) : String :=
  "energy_multiplier: " ++ toString c.energy_multiplier ++ "\n" ++
    "rho_max: " ++ toString c.rho_max ++ "\n"

/-- The store's observable state: the in-memory `_config` singleton and the
bytes of the persisted YAML file. -/
structure StoreState where
  config : Config
  fileContents : String
deriving Repr, DecidableEq

/-- `get_config()`. -/
def get_config (st : StoreState) : Config := st.config

/-- `update_config(updates)`: merge, validate, and only then mutate
`_config` and persist (`_save_config`, rewriting the file).  When
validation raises, the pre-call state is returned unchanged alongside the
error, mirroring the exception propagating before any assignment. -/
def update_config (st : StoreState) (u : ConfigUpdates) :
    StoreState × Except String Config :=
  let newConfig := applyUpdates st.config u
  match newConfig.validate with
  | .error e => (st, .error e)
  | .ok _ =>
      ({ config := newConfig, fileContents := yamlDump newConfig },
        .ok newConfig)

/-! ## String helpers shared by the embeddings

These model the concrete string operations the source uses: Python
`str.strip`, substring search, and the ground Z3 string operations
(`PrefixOf`, `Contains`, `IndexOf`, `SubString`) that `plan_smt` evaluates
on constant strings. -/

/-- Python `\s` (ASCII range): space, tab, newline, `\v`, `\f`, `\r`. -/
def isPySpace (c : Char) : Bool :=
  c = ' ' || c = '\t' || c = '\n' || c = '\r' ||
    c = Char.ofNat 11 || c = Char.ofNat 12

/-- Python `str.strip()` on the character list. -/
def pyStripChars (cs : List Char) : List Char :=
  ((cs.dropWhile isPySpace).reverse.dropWhile isPySpace).reverse

/-- Python `str.strip()`. -/
def pyStrip (s : String) : String := ⟨pyStripChars s.data⟩

/-- `str.startswith(pre)` (computed on the character lists). -/
def strStartsWith (s pre : String) : Bool := pre.data.isPrefixOf s.data

/-- Split a character list at every character satisfying `p`, keeping empty
pieces (the semantics of Python `str.split(sep)` for a one-character
separator, and the building block for `str.split()`). -/
def splitOnPred (p : Char → Bool) : List Char → List (List Char)
  | [] => [[]]
  | x :: t =>
      match splitOnPred p t with
      | [] => [[]]
      | r :: rs => if p x then [] :: r :: rs else (x :: r) :: rs

/-- Index set `0, …, n`. -/
def positionsUpTo (n : ℕ) : List ℕ := List.range (n + 1)

/-- Does `pat` occur in `hay` starting at index `i`? -/
def occursAt (hay pat : List Char) (i : ℕ) : Bool :=
  pat.isPrefixOf (hay.drop i)

/-- Substring containment (`sub in s` / Z3 `Contains`). -/
def strContains (s sub : String) : Bool :=
  (positionsUpTo s.data.length).any (occursAt s.data sub.data)

/-- First occurrence index of `sub` in `s`, or `-1` (Python `str.find` /
Z3 `IndexOf(s, sub, 0)`). -/
def strIndexOf (s sub : String) : ℤ :=
  match (positionsUpTo s.data.length).filter (occursAt s.data sub.data) with
  | [] => -1
  | i :: _ => (i : ℤ)

/-- Z3 `SubString(s, off, len)` (SMT-LIB `str.substr`): empty when `off` is
out of range or `len ≤ 0`. -/
def strSubstr (s : String) (off len : ℤ) : String :=
  if off < 0 ∨ len ≤ 0 ∨ (s.data.length : ℤ) ≤ off then ""
  else ⟨(s.data.drop off.toNat).take len.toNat⟩

/-! ## Plan models

The repository carries **two** distinct plan DSL models:

* `agent/core/plan_models.py` — the one imported by `plan_smt.verify_plan`
  and the operator API.  Its `Plan` has a single field `steps: List[Step]`
  with **no** non-emptiness constraint, and no `name`/`tokens` fields.
* `raft/agent/core/plan_models.py` — `Plan` with `name` (non-empty after
  stripping), optional `tokens >= 0` and a non-empty `steps` list.

Step-level content validation (URLs, artifact paths) is performed by
pydantic field validators at construction; the claims settled here are
about the *plan-level* rules and about `verify_plan`, so steps enter the
plan models below as already-constructed `Step` values. -/

/-- A step of the core DSL (`agent/core/plan_models.py`): a tagged variant
`Fetch(url) | WriteFile(path, content) | Run(target)`. -/
inductive Step where
  | fetch (url : String)
  | writeFile (path content : String)
  | run (target : String)
deriving Repr, DecidableEq

/-- `getattr(step, "op", "")`. -/
def stepOp : Step → String
  | .fetch _ => "Fetch"
  | .writeFile _ _ => "WriteFile"
  | .run _ => "Run"

/-- `getattr(step, "url", "")` — non-Fetch steps have no `url` attribute. -/
def stepUrl : Step → String
  | .fetch url => url
  | _ => ""

/-- `getattr(step, "path", "")`. -/
def stepPath : Step → String
  | .writeFile path _ => path
  | _ => ""

/-- `getattr(step, "target", "")`. -/
def stepTarget : Step → String
  | .run target => target
  | _ => ""

/-- The core `Plan` (`agent/core/plan_models.py`): only `steps`. -/
structure CorePlan where
  steps : List Step
deriving Repr, DecidableEq

/-- Pydantic validation of the core `Plan`: the model declares
`steps: List[Step]` and nothing else, so *any* list of valid steps is
accepted — including the empty list. -/
def corePlanValidate (steps : List Step) : Except String CorePlan :=
  .ok ⟨steps⟩

/-- The raft `Plan` (`raft/agent/core/plan_models.py`). -/
structure RaftPlan where
  name : String
  tokens : Option ℤ
  steps : List Step
deriving Repr, DecidableEq

/-- Pydantic validation of the raft `Plan`, one check per field constraint:
`_validate_name` strips and rejects the empty string (storing the stripped
name); `tokens` has `ge=0` (vacuous when absent); `_validate_steps`
rejects an empty list. -/
def raftPlanValidate (name : String) (tokens : Option ℤ) (steps : List Step) :
    Except String RaftPlan :=
  if pyStrip name = "" then .error "name must be non-empty"
  else if tokens.any (fun t => decide (t < 0)) then
    .error "tokens must be greater than or equal to 0"
  else if steps.isEmpty then .error "steps must be non-empty"
  else .ok ⟨pyStrip name, tokens, steps⟩

/-! ## Plan prover (`agent/core/plan_smt.py`)

`verify_plan` first calls `_get_redis()`, which delegates to
`smt_verifier._get_redis()`.  The module `agent/core/smt_verifier.py`
defines **no** attribute `_get_redis` (the test suite's autouse fixture
patches it in with `create=True`), so outside the patched test environment
the attribute access raises `AttributeError` before any solving happens.
The remainder of the function body is embedded as well: every Z3 constraint
it builds is over constant strings, so the solve reduces to evaluating the
per-step violation predicates. -/

/-- The top-level names defined by `agent/core/smt_verifier.py` (its module
attributes), in source order. -/
def smtVerifierTopLevelNames : List String :=
  ["TTL", "REDIS", "_cache_key", "_get_cached", "_set_cache",
   "_extract_model", "verify", "verify_bool"]

/-- `plan_smt._get_redis`: the attribute lookup
`smt_verifier._get_redis` raises `AttributeError` because the name is
absent; the `.ok` branch (a successful lookup returning the module-level
Redis handle, `None` when Redis is unreachable) is never taken. -/
def planSmtGetRedis : Except String (Option Unit) :=
  if smtVerifierTopLevelNames.contains "_get_redis" then .ok none
  else .error
    "AttributeError: module agent.core.smt_verifier has no attribute _get_redis"

/-- A plan counterexample record `{step_idx, op, field, value}`. -/
structure PlanCx where
  step_idx : ℕ
  op : String
  field : String
  value : String
deriving Repr, DecidableEq

/-- `_first_violation_python(plan)`: the native re-check used to craft the
counterexample (deliberately simpler than the Z3 encoding). -/
def firstViolationPython (plan : CorePlan) : Option PlanCx :=
  (plan.steps.enum.filterMap (fun p =>
    let (idx, step) := p
    match step with
    | .fetch url =>
        let afterScheme := strSubstr url (strIndexOf url "://" + 3)
          ((url.data.length : ℤ) - (strIndexOf url "://" + 3))
        if !((strStartsWith url "http://" || strStartsWith url "https://") &&
              strContains url "://" &&
              strContains afterScheme ".") then
          some ⟨idx, "Fetch", "url", url⟩
        else none
    | .writeFile path _ =>
        let norm := ⟨path.data.map (fun c => if c = '\\' then '/' else c)⟩
        let isRelative := !strStartsWith norm "/" && !strContains norm ":/"
        let noDotdot := !strContains norm ".."
        let startsArtifacts := strStartsWith norm "artifacts/"
        if !(isRelative && noDotdot && startsArtifacts) then
          some ⟨idx, "WriteFile", "path", path⟩
        else none
    | .run target =>
        if target ≠ "governor.one_cycle" then
          some ⟨idx, "Run", "target", target⟩
        else none)).head?

/-- The Z3 violation formula built for one step, evaluated: all operands are
`StringVal` constants, so the assertion is ground and `solver.check()`
decides it by evaluation. -/
def stepViolationSMT (step : Step) : Bool :=
  let op := stepOp step
  let url := stepUrl step
  let schemeOk := strStartsWith url "http://" || strStartsWith url "https://"
  let idx := strIndexOf url "://"
  let hostPart := strSubstr url (idx + 3) ((url.data.length : ℤ) - (idx + 3))
  let hasHostDot := decide (0 ≤ idx) && strContains hostPart "."
  let fetchValid := schemeOk && hasHostDot
  let fetchViolation := op == "Fetch" && !fetchValid
  let path := stepPath step
  let startsArtifacts :=
    strStartsWith path "artifacts/" || strStartsWith path "artifacts\\"
  let isRelative := !strStartsWith path "/" && !strContains path ":/" &&
    !strContains path ":\\"
  let noDotdot := !strContains path ".." && !strContains path "..\\"
  let wfValid := isRelative && noDotdot && startsArtifacts
  let wfViolation := op == "WriteFile" && !wfValid
  let target := stepTarget step
  let runValid := target == "governor.one_cycle"
  let runViolation := op == "Run" && !runValid
  fetchViolation || wfViolation || runViolation

/-- `verify_plan(plan)`: cache probe via `_get_redis` (which raises, see
above), then the ground Z3 contradiction check — UNSAT (no step violation
evaluates to true) yields `(True, None)`, otherwise
`(False, _first_violation_python(plan))`. -/
def verify_plan (plan : CorePlan) :
    Except String (Bool × Option PlanCx) := do
  let _r ← planSmtGetRedis
  if plan.steps.any stepViolationSMT then
    pure (false, firstViolationPython plan)
  else
    pure (true, none)

/-! ## Diff safety builder (`agent/core/diff_builder.py`)

`build_smt_diff` parses a unified diff into a `DiffAST`, scans added lines
for the eight built-in forbidden-API regexes (the governor's builder is
constructed with no charter, so only the defaults apply), pairs removed
against added function definitions to detect renames, flags renames whose
argument sequences differ, and emits `(assert true)` for a safe diff and
`(assert false)` when any violation is found.

The regex matchers below are exact functional translations of the compiled
patterns, specialised to the ASCII inputs the claims are evaluated at
(Python's `\w`/`\s` additionally match some non-ASCII characters). -/

/-- Python `\w` (ASCII range): letters, digits, underscore. -/
def isWordChar (c : Char) : Bool := c.isAlphanum || c = '_'

/-- Match of `\b LIT \b` at offset `i`, for a literal whose first and last
characters are word characters (true of every built-in pattern, including
`os.system` whose inner dot is escaped in the regex): the boundaries reduce
to "neighbouring character absent or non-word". -/
def wordBoundedAt (hay pat : List Char) (i : ℕ) : Bool :=
  occursAt hay pat i &&
  (i == 0 || !(isWordChar (hay.getD (i - 1) ' '))) &&
  (i + pat.length == hay.length || !(isWordChar (hay.getD (i + pat.length) ' ')))

/-- `re.search` of a word-bounded literal pattern. -/
def searchWordBounded (pat : String) (s : String) : Bool :=
  (positionsUpTo s.data.length).any (wordBoundedAt s.data pat.data)

/-- Match of `\bimport\s+\*` at offset `i`. -/
def importStarAt (hay : List Char) (i : ℕ) : Bool :=
  occursAt hay "import".data i &&
  (i == 0 || !(isWordChar (hay.getD (i - 1) ' '))) &&
  (let rest := hay.drop (i + 6)
   let sp := rest.takeWhile isPySpace
   decide (1 ≤ sp.length) && (rest.getD sp.length ' ' == '*'))

/-- `re.search(r"\bimport\s+\*", s)`. -/
def searchImportStar (s : String) : Bool :=
  (positionsUpTo s.data.length).any (importStarAt s.data)

/-- `DEFAULT_FORBIDDEN_PATTERNS`, compiled: each source regex paired with
its matcher. -/
def forbiddenPatternMatches : List (String × (String → Bool)) :=
  [ ("\\bsubprocess\\b", searchWordBounded "subprocess"),
    ("\\bos\\.system\\b", searchWordBounded "os.system"),
    ("\\beval\\b", searchWordBounded "eval"),
    ("\\bexec\\b", searchWordBounded "exec"),
    ("\\bimport\\s+\\*", searchImportStar),
    ("\\b__import__\\b", searchWordBounded "__import__"),
    ("\\bglobals\\b", searchWordBounded "globals"),
    ("\\blocals\\b", searchWordBounded "locals") ]

/-- A parsed diff line (`DiffLine` dataclass). -/
structure DiffLine where
  line_type : String
  content : String
  file_path : String
  line_number : ℕ
  old_line_number : Option ℕ
  new_line_number : Option ℕ
deriving Repr, DecidableEq

/-- A function signature (`FunctionSignature` dataclass):
name + ordered argument names + optional return annotation. -/
structure FunctionSignature where
  name : String
  args : List String
  returns : Option String := none
deriving Repr, DecidableEq

/-- The parsed diff (`DiffAST` dataclass).  `modified_files` is a Python
set, modelled as an insert-ordered duplicate-free list; the two mappings
are CPython dicts modelled as insert-ordered association lists. -/
structure DiffAST where
  added_lines : List DiffLine
  removed_lines : List DiffLine
  modified_files : List String
  function_renames : List (String × String)
  function_signatures : List (String × FunctionSignature)
deriving Repr, DecidableEq

/-- Python `str.split()` (no argument): split on whitespace runs,
dropping empty tokens. -/
def pySplitWs (s : String) : List String :=
  ((splitOnPred isPySpace s.data).filter (fun t => ¬ t = [])).map
    (fun t => (⟨t⟩ : String))

/-- Decimal digit run to a number. -/
def digitsToNat (ds : List Char) : ℕ :=
  ds.foldl (fun n c => 10 * n + (c.toNat - 48)) 0

/-- `re.search(r"-(\d+)", line)` (resp. with `+`): the first occurrence of
the sign character directly followed by a digit; the group is the maximal
digit run after it. -/
def firstNumAfterChar (sign : Char) : List Char → Option ℕ
  | [] => none
  | c :: rest =>
      if c == sign && (match rest with | d :: _ => d.isDigit | [] => false) then
        some (digitsToNat (rest.takeWhile Char.isDigit))
      else firstNumAfterChar sign rest

/-- `re.search` of `function_pattern =
^[+-]?\s*def\s+(\w+)\s*\(([^)]*)\)` on a single (newline-free) line:
returns the name and the raw argument text.  The pattern is anchored, the
character classes are disjoint at each step and `[^)]*` stops at the first
`)`, so the match is computed without backtracking. -/
def matchFunctionPattern (content : String) : Option (String × String) :=
  let cs := content.data
  let cs1 := match cs with
    | c :: rest => if c = '+' ∨ c = '-' then rest else cs
    | [] => cs
  let cs2 := cs1.dropWhile isPySpace
  if "def".data.isPrefixOf cs2 then
    let cs3 := cs2.drop 3
    let sp := cs3.takeWhile isPySpace
    if sp.length == 0 then none
    else
      let cs4 := cs3.drop sp.length
      let nm := cs4.takeWhile isWordChar
      if nm.length == 0 then none
      else
        match (cs4.drop nm.length).dropWhile isPySpace with
        | '(' :: rest =>
            let args := rest.takeWhile (fun c => c ≠ ')')
            if args.length == rest.length then none
            else some (⟨nm⟩, ⟨args⟩)
        | _ => none
  else none

/-- `re.search` of `enhanced_pattern =
^[+-]?\s*def\s+(\w+)\s*\(([^)]*)\)(?:\s*->\s*([^:]+))?:`.
After the closing `)` the optional annotation group matches exactly when a
`:` follows `->` with at least one character in between; because `group(3)`
is only ever consumed through `.strip()` (and its truthiness, which equals
non-emptiness), the returned annotation is the full non-colon run after
`->`, which is strip-equivalent to the regex's backtracked group. -/
def matchEnhancedPattern (content : String) :
    Option (String × String × Option String) :=
  match matchFunctionPattern content with
  | none => none
  | some (nm, args) =>
      let cs := content.data
      let cs1 := match cs with
        | c :: rest => if c = '+' ∨ c = '-' then rest else cs
        | [] => cs
      let cs2 := cs1.dropWhile isPySpace
      let cs3 := cs2.drop 3
      let cs4 := cs3.drop (cs3.takeWhile isPySpace).length
      let cs5 := (cs4.drop (cs4.takeWhile isWordChar).length).dropWhile isPySpace
      let after := (cs5.drop 1).drop ((cs5.drop 1).takeWhile (fun c => c ≠ ')')).length |>.drop 1
      let after1 := after.dropWhile isPySpace
      if "->".data.isPrefixOf after1 then
        let after2 := after1.drop 2
        let pre := after2.takeWhile (fun c => c ≠ ':')
        if 1 ≤ pre.length ∧ pre.length < after2.length then
          some (nm, args, some ⟨pre⟩)
        else
          match after with
          | ':' :: _ => some (nm, args, none)
          | _ => none
      else
        match after with
        | ':' :: _ => some (nm, args, none)
        | _ => none

/-- Argument-name extraction in `_extract_function_info`:
`[arg.strip().split(":")[0].strip() for arg in args_str.split(",") if arg.strip()]`. -/
def parseArgList (argsStr : String) : List String :=
  (splitOnPred (fun c => c = ',') argsStr.data).filterMap (fun arg =>
    let stripped := pyStripChars arg
    if stripped = [] then none
    else some (pyStrip ⟨stripped.takeWhile (fun c => c ≠ ':')⟩))

/-- `_extract_function_info(line, signatures, line_type)`: on a
`function_pattern` match, store the signature under key
`line_type + name`. -/
def extractFunctionInfo (content : String)
    (sigs : List (String × FunctionSignature)) (lineType : String) :
    List (String × FunctionSignature) :=
  match matchFunctionPattern content with
  | some (nm, argsStr) =>
      dictUpsert sigs (lineType ++ nm) ⟨nm, parseArgList argsStr, none⟩
  | none => sigs

/-- The parser loop state of `parse_unified_diff`. -/
structure ParseState where
  current_file : Option String
  old_ln : ℕ
  new_ln : ℕ
  added : List DiffLine
  removed : List DiffLine
  files : List String
  sigs : List (String × FunctionSignature)

/-- Python `set.add` on the insert-ordered list model. -/
def setInsert (l : List String) (x : String) : List String :=
  if l.contains x then l else l ++ [x]

/-- One iteration of the `for line in diff_text.split("\n")` loop of
`parse_unified_diff`. -/
def parseDiffLineStep (st : ParseState) (line : String) : ParseState :=
  if strStartsWith line "diff --git" then
    let parts := pySplitWs line
    if 4 ≤ parts.length then
      let f : String := ⟨(parts.getD 3 "").data.drop 2⟩
      { st with current_file := some f, files := setInsert st.files f }
    else st
  else if strStartsWith line "@@" then
    { st with old_ln := (firstNumAfterChar '-' line.data).getD st.old_ln,
              new_ln := (firstNumAfterChar '+' line.data).getD st.new_ln }
  else if strStartsWith line "+" ∧ ¬ strStartsWith line "+++" then
    let content : String := ⟨line.data.drop 1⟩
    { st with
        added := st.added ++
          [⟨"+", content, st.current_file.getD "", st.new_ln, none, some st.new_ln⟩],
        sigs := extractFunctionInfo content st.sigs "+",
        new_ln := st.new_ln + 1 }
  else if strStartsWith line "-" ∧ ¬ strStartsWith line "---" then
    let content : String := ⟨line.data.drop 1⟩
    { st with
        removed := st.removed ++
          [⟨"-", content, st.current_file.getD "", st.old_ln, some st.old_ln, none⟩],
        sigs := extractFunctionInfo content st.sigs "-",
        old_ln := st.old_ln + 1 }
  else if strStartsWith line " " then
    { st with old_ln := st.old_ln + 1, new_ln := st.new_ln + 1 }
  else st

/-- The full signature string built by `_detect_function_renames`:
`f"{args}|{return_type or ''}"` with `args = group(2).strip()` and
`return_type = group(3).strip() if group(3) else None`. -/
def enhancedFullSig (content : String) : Option (String × String) :=
  (matchEnhancedPattern content).map (fun t =>
    (t.1, pyStrip t.2.1 ++ "|" ++ pyStrip (t.2.2.getD "")))

/-- `added_funcs` / `removed_funcs`: name → full signature, a dict built in
line order. -/
def buildFuncSigs (lines : List DiffLine) : List (String × String) :=
  lines.foldl (fun d l =>
    match enhancedFullSig l.content with
    | some p => dictUpsert d p.1 p.2
    | none => d) []

/-- `_names_similar(name1, name2)`: both length ≥ 3 and a shared prefix or
suffix of some length `i ∈ [3, min(len1, len2)]`. -/
def namesSimilar (n1 n2 : String) : Bool :=
  if n1.length < 3 ∨ n2.length < 3 then false
  else (List.range (min n1.length n2.length + 1)).any (fun i =>
    3 ≤ i &&
      (n1.data.take i == n2.data.take i ||
        n1.data.reverse.take i == n2.data.reverse.take i))

/-- `old_sig.split('|')[0]`. -/
def splitBarHead (s : String) : String := ⟨s.data.takeWhile (fun c => c ≠ '|')⟩

/-- Accumulator for the two pairing loops of `_detect_function_renames`. -/
structure RenameState where
  renames : List (String × String)
  used : List String

/-- `_detect_function_renames(added_lines, removed_lines)`: greedy
first-match no-reuse pairing.  Loop 1 pairs same-signature different-name
functions (with non-empty argument text); loop 2 pairs same-name
different-signature functions, and different-name different-signature
functions whose names are substrings of one another or `_names_similar`.
Each inner loop acts at the first qualifying added function and breaks. -/
def detectFunctionRenames (added removed : List DiffLine) :
    List (String × String) :=
  let addedFuncs := buildFuncSigs added
  let removedFuncs := buildFuncSigs removed
  let st1 := removedFuncs.foldl (fun (st : RenameState) op =>
    match addedFuncs.find? (fun np =>
        np.2 == op.2 && np.1 ≠ op.1 && !st.used.contains np.1 &&
        splitBarHead op.2 ≠ "") with
    | some np => ⟨dictUpsert st.renames op.1 np.1, st.used ++ [np.1]⟩
    | none => st) (⟨[], []⟩ : RenameState)
  let st2 := removedFuncs.foldl (fun (st : RenameState) op =>
    match addedFuncs.find? (fun np =>
        (np.1 == op.1 && np.2 ≠ op.2 && !st.used.contains np.1 &&
          !dictHasKey st.renames op.1) ||
        (np.1 ≠ op.1 && np.2 ≠ op.2 && !st.used.contains np.1 &&
          !dictHasKey st.renames op.1 &&
          (strContains np.1 op.1 || strContains op.1 np.1 ||
            namesSimilar op.1 np.1))) with
    | some np => ⟨dictUpsert st.renames op.1 np.1, st.used ++ [np.1]⟩
    | none => st) st1
  st2.renames

/-- `parse_unified_diff(diff_text)`. -/
def parseUnifiedDiff (diffText : String) : DiffAST :=
  if pyStrip diffText = "" then ⟨[], [], [], [], []⟩
  else
    let st := ((splitOnPred (fun c => c = '\n') diffText.data).map
        (fun l => (⟨l⟩ : String))).foldl parseDiffLineStep
      ⟨none, 0, 0, [], [], [], []⟩
    ⟨st.added, st.removed, st.files,
      detectFunctionRenames st.added st.removed, st.sigs⟩

/-- `_find_forbidden_violations(diff_ast)`: every (pattern, added line)
match, as `(pattern, content, file_path, new_line_number or line_number)`
(`or` — Python falls back when the number is `None` or `0`). -/
def findForbiddenViolations (ast : DiffAST) :
    List (String × String × String × ℕ) :=
  ast.added_lines.flatMap (fun l =>
    forbiddenPatternMatches.filterMap (fun pm =>
      if pm.2 l.content then
        some (pm.1, l.content, l.file_path,
          match l.new_line_number with
          | some n => if n = 0 then l.line_number else n
          | none => l.line_number)
      else none))

/-- `_find_goal_preservation_violations(diff_ast)`: renames whose recorded
signatures (keys `-old` and `+new`) have differing argument sequences.  The
source compares `len(args)` and `str(args)`; `str` on lists of strings is
injective, so the comparison equals list inequality. -/
def findGoalPreservationViolations (ast : DiffAST) :
    List (String × String × List String × List String) :=
  ast.function_renames.filterMap (fun p =>
    match dictLookup ast.function_signatures ("-" ++ p.1),
        dictLookup ast.function_signatures ("+" ++ p.2) with
    | some oldSig, some newSig =>
        if oldSig.args.length ≠ newSig.args.length ∨ oldSig.args ≠ newSig.args
        then some (p.1, p.2, oldSig.args, newSig.args)
        else none
    | _, _ => none)

/-- `SMTDiffBuilder.build_smt_formula(diff_text)`: `(assert true)` for a
blank diff; otherwise `(assert false)` exactly when a forbidden-pattern or
goal-preservation violation is found, else `(assert true)`. -/
def SMTDiffBuilder.build_smt_formula (diffText : String) : String :=
  if pyStrip diffText = "" then "(assert true)"
  else
    let ast := parseUnifiedDiff diffText
    if !(findForbiddenViolations ast).isEmpty ∨
        !(findGoalPreservationViolations ast).isEmpty then
      "(assert false)"
    else "(assert true)"

/-- `build_smt_diff(diff_text)`: delegates to the module-level
`SMTDiffBuilder` constructed with the default forbidden patterns. -/
def build_smt_diff (diffText : String) : String :=
  SMTDiffBuilder.build_smt_formula diffText

/-! ## SMT verifier (`agent/core/smt_verifier.py`)

The environment around `verify` — the SHA-256 digest, the Redis cache, the
`json.loads` decoder and the Z3 backend — is passed explicitly; the
function body below mirrors the source's control flow over it.  A Z3 parse
exception is the backend returning `Except.error`; `verify` then raises
`RuntimeError("SMT parse error: …")`.  Cache writes (`_set_cache`) are
best-effort and never alter the returned verdict; they are not tracked. -/

/-- A value bound by a Z3 model, by the conversion branch that applies to
it in `_extract_model`: `as_long`; `as_fraction`; real via `as_decimal(10)`
(whose text may end in `?`); fallback `str`. -/
inductive Z3Val where
  | intVal (n : ℤ)
  | fracVal (num den : ℤ)
  | realVal (dec : String)
  | symVal (s : String)
deriving Repr, DecidableEq

/-- A `solver.check()` outcome: `sat` carries the model as the ordered list
of its declarations with their values. -/
inductive Z3CheckResult where
  | sat (model : List (String × Z3Val))
  | unsat
  | unknown

/-- `str(Fraction(num, den))` for a normalised fraction. -/
def fractionStr (num den : ℤ) : String :=
  if den = 1 then toString num else toString num ++ "/" ++ toString den

/-- `str(dec).rstrip("?")`. -/
def rstripQmark (s : String) : String :=
  ⟨(s.data.reverse.dropWhile (fun c => c = '?')).reverse⟩

/-- The per-value conversion of `_extract_model`. -/
def z3ValToPy : Z3Val → PyVal
  | .intVal n => .pyInt n
  | .fracVal num den => .pyStr (fractionStr num den)
  | .realVal dec => .pyStr (rstripQmark dec)
  | .symVal s => .pyStr s

/-- `_extract_model(solver)`: iterate the declarations of the model in
order, converting each assignment into the returned dict. -/
def extractModel (model : List (String × Z3Val)) : List (String × PyVal) :=
  model.foldl (fun acc p => dictUpsert acc p.1 (z3ValToPy p.2)) []

/-- The effectful surroundings of `verify`, abstracted: the content digest
used by `_cache_key`, the Redis cache reads (`None` when Redis is down or
the key is absent), `json.loads` (returning `none` on a decode error), and
the Z3 parse+check pipeline (`Except.error` models a parse exception). -/
structure VerifyEnv where
  sha256 : String → String
  cache : String → Option String
  jsonLoads : String → Option PyVal
  solve : String → Except String Z3CheckResult

/-- `_cache_key(diff, charter_hash)`. -/
def cacheKey (env : VerifyEnv) (diff charterHash : String) : String :=
  env.sha256 diff ++ ":" ++ charterHash

/-- The structured verdict dict of `verify`. -/
def resultDict (r : Bool) (ce : PyVal) : PyVal :=
  .pyDict [("result", .pyBool r), ("counterexample", ce)]

/-- A one-field reason dict. -/
def reasonDict (s : String) : PyVal :=
  .pyDict [("reason", .pyStr s)]

/-- `verify(diff, charter_hash)`: cache probe (legacy `"1"`/`"0"` flags,
then the JSON cache format, with a `cache_error` fallback); on a miss,
parse and solve.  SAT yields `result: True` with the extracted model as
`counterexample` when non-empty; UNSAT yields `result: False` with reason
`formula_unsatisfiable`; UNKNOWN yields `result: False` with reason
`solver_unknown`.  A parse failure raises `RuntimeError`. -/
def verify (env : VerifyEnv) (diff charterHash : String) :
    Except String PyVal :=
  let key := cacheKey env diff charterHash
  match env.cache key with
  | some cached =>
      if cached = "1" then .ok (resultDict true .pyNone)
      else if cached = "0" then
        .ok (resultDict false (reasonDict "formula_unsatisfiable"))
      else
        match env.jsonLoads cached with
        | some (.pyDict es) =>
            if dictHasKey es "counterexample" then
              match dictLookup es "result", dictLookup es "counterexample" with
              | some r, some ce =>
                  .ok (.pyDict [("result", r), ("counterexample", ce)])
              | _, _ => .ok (resultDict false (reasonDict "cache_error"))
            else .ok (resultDict false (reasonDict "cache_error"))
        | _ => .ok (resultDict false (reasonDict "cache_error"))
  | none =>
      match env.solve diff with
      | .error exc => .error ("SMT parse error: " ++ exc)
      | .ok (.sat model) =>
          let assignments := extractModel model
          if assignments.isEmpty then .ok (resultDict true .pyNone)
          else .ok (resultDict true (.pyDict assignments))
      | .ok .unsat =>
          .ok (resultDict false (reasonDict "formula_unsatisfiable"))
      | .ok .unknown =>
          .ok (resultDict false (reasonDict "solver_unknown"))

/-- The verdict `verify` computes for each solver outcome (the mapping the
amended claim C2 states): SAT passes, with the iterated model attached when
non-empty; UNSAT and UNKNOWN fail with their respective reasons. -/
def verdictOfCheck : Z3CheckResult → PyVal
  | .sat model =>
      if (extractModel model).isEmpty then resultDict true .pyNone
      else resultDict true (.pyDict (extractModel model))
  | .unsat => resultDict false (reasonDict "formula_unsatisfiable")
  | .unknown => resultDict false (reasonDict "solver_unknown")

/-- A `VerifyEnv` for the concrete runs below: no Redis (every lookup
misses, as when the connection is refused at import time, making
`_get_cached` return `None`), and a Z3 backend pinned on the two ground
formulas the diff builder emits — `(assert true)` is satisfiable with an
empty model, `(assert false)` is unsatisfiable. -/
def groundEnv : VerifyEnv where
  sha256 := fun s => s
  cache := fun _ => none
  jsonLoads := fun _ => none
  solve := fun s =>
    if s = "(assert true)" then .ok (.sat [])
    else if s = "(assert false)" then .ok .unsat
    else .error "unmodelled formula"

/-! ## Governor (`agent/core/governor.py`)

`run_one_cycle` has no parameters in the source; its inputs are process
globals and ambient effects.  They enter the embedding explicitly:

* `proposedDiff` — the diff text handed to `build_smt_diff` (the source's
  `_build_smt_diff` currently hardcodes the placeholder
  `"example diff text"` pending VCS integration; the claims quantify over
  the proposed diff, so it is a parameter here);
* `env` — the verifier's environment (cache and solver);
* `rho` — the value produced by
  `_SPECTRAL_MODEL.estimate_spectral_radius(torch.randn(4), n_iter=10)`
  (a numeric estimate at a random probe point);
* `drift` — the `_DRIFT_MONITOR` state (its successful initialisation);
* `paused` — the escape-hatch `is_paused()` flag.

The outcome records the event log appends (`record(event, payload)` calls)
in order, the stages the control flow actually entered, the drift monitor
state afterwards, and the return value (`Except.error` when `verify`
raises).  Prometheus gauge/counter updates carry no control flow and are
not modelled. -/

/-- `MAX_SPECTRAL_RADIUS`. -/
def MAX_SPECTRAL_RADIUS : ℚ := 9/10

/-- What one `run_one_cycle` call did. -/
structure CycleOutcome where
  events : List (String × PyVal)
  stages : List String
  drift : DriftMonitor
  ret : Except String Bool

/-- `run_one_cycle()`.  Note the event names: the source writes
`proof‑fail`, `spectral‑breach` and `cycle‑complete` with a non-breaking
hyphen (U+2011) but `drift-alert` with an ASCII hyphen. -/
def run_one_cycle (env : VerifyEnv) (proposedDiff charterHash : String)
    (rho : ℚ) (drift : DriftMonitor) (paused : Bool) : CycleOutcome :=
  let diff := build_smt_diff proposedDiff
  match verify env diff charterHash with
  | .error exc => ⟨[], ["proof-gate"], drift, .error exc⟩
  | .ok ok =>
      if pyTruthy ok then
        let (drift', alert) := drift.record rho
        match alert with
        | some ctx =>
            ⟨[("drift-alert",
                .pyDict [("rho", .pyRat rho), ("mean_drift", .pyRat ctx.mean_drift),
                  ("max_drift", .pyRat ctx.max_drift)])],
              ["proof-gate", "spectral", "drift"], drift', .ok false⟩
        | none =>
            if rho ≥ MAX_SPECTRAL_RADIUS then
              ⟨[("spectral‑breach", .pyDict [("rho", .pyRat rho)])],
                ["proof-gate", "spectral", "drift"], drift', .ok false⟩
            else
              let events := [("cycle‑complete",
                PyVal.pyDict [("rho", .pyRat rho),
                  ("charter", .pyStr ⟨charterHash.data.take 8⟩)])]
              if paused then
                ⟨events, ["proof-gate", "spectral", "drift", "energy", "commit"],
                  drift', .ok false⟩
              else
                ⟨events, ["proof-gate", "spectral", "drift", "energy", "commit"],
                  drift', .ok true⟩
      else
        ⟨[("proof‑fail",
            .pyDict [("diff", .pyStr diff),
              ("charter_hash", .pyStr ⟨charterHash.data.take 8⟩)])],
          ["proof-gate"], drift, .ok false⟩

/-! ## Spectral estimator (`agent/core/spectral.py`)

`estimate_spectral_radius` enters its batch path whenever
`batch_mode or x.dim() > 1`; inside it, a sample of dimension ≠ 1 makes
`_estimate_single_spectral_radius` raise
`ValueError("Single input must be 1D, …")`.  The power iteration itself is
floating-point torch autograd code; it always returns a float for a 1-D
input, and the claims settled here concern only the rank-driven control
flow, so the per-vector numeric estimate is abstracted as the function
parameter `single`. -/

/-- A torch tensor, as far as `dim()` and batch indexing see it: a 1-D
vector of floats, or a stack of tensors along a leading axis. -/
inductive Tensor where
  | base (xs : List ℚ)
  | stack (ts : List Tensor)

/-- `x.dim()` (for the well-formed, non-empty tensors the theorems use;
an empty `stack` is given the junk inner rank 1). -/
def Tensor.dim : Tensor → ℕ
  | .base _ => 1
  | .stack [] => 2
  | .stack (t :: _) => 1 + t.dim

/-- `_estimate_single_spectral_radius(f, x, n_iter, tolerance)`: raises
unless the input is 1-D, then runs the power iteration (abstracted as
`single`). -/
def estimate_single_spectral_radius (single : List ℚ → ℚ) :
    Tensor → Except String ℚ
  | .base xs => .ok (single xs)
  | .stack _ => .error "Single input must be 1D"

/-- `float(torch.tensor(rs).mean())` over the per-sample estimates. -/
def batchMean (rs : List ℚ) : ℚ := rs.sum / (rs.length : ℚ)

/-- `estimate_spectral_radius(f, x, n_iter, tolerance, batch_mode)`: the
batch path is taken when `batch_mode or x.dim() > 1`; inside it, a 1-D
input is still estimated singly, and otherwise every sample `x[i]` along
the leading axis is estimated singly and the results averaged. -/
def estimate_spectral_radius (single : List ℚ → ℚ) (x : Tensor)
    (batch_mode : Bool) : Except String ℚ :=
  if batch_mode || decide (1 < x.dim) then
    if x.dim = 1 then estimate_single_spectral_radius single x
    else
      match x with
      | .base xs => estimate_single_spectral_radius single (.base xs)
      | .stack ts => do
          let rs ← ts.mapM (estimate_single_spectral_radius single)
          pure (batchMean rs)
  else estimate_single_spectral_radius single x

/-- A concrete stand-in per-vector estimator, used only to evaluate the
control flow at concrete inputs (the returned magnitude is irrelevant to
whether the call raises). -/
def demoSingleEstimator (xs : List ℚ) : ℚ := xs.sum

/-! ## Shared lemmas about the drift monitor -/

/-- The last `min (l.length) W` elements of a list. -/
def lastN (W : ℕ) (l : List ℚ) : List ℚ := l.drop (l.length - W)

theorem dequeAppend_lastN (W : ℕ) (acc : List ℚ) (v : ℚ) :
    dequeAppend W (lastN W acc) v = lastN W (acc ++ [v]) := by
  unfold dequeAppend lastN
  have hle : acc.length - W ≤ acc.length := Nat.sub_le _ _
  have h1 : acc.drop (acc.length - W) ++ [v] = (acc ++ [v]).drop (acc.length - W) := by
    rw [List.drop_append_of_le_length hle]
  rw [h1, List.drop_drop]
  congr 1
  simp only [List.length_drop, List.length_append, List.length_cons,
    List.length_nil]
  omega

theorem record_fst (m : DriftMonitor) (v : ℚ) :
    (m.record v).1 = { m with values := dequeAppend m.window_size m.values v } := by
  unfold DriftMonitor.record
  dsimp only
  split
  · rfl
  · split <;> rfl

theorem runRecords_fst (m : DriftMonitor) (xs : List ℚ) :
    (runRecords m xs).1 = xs.foldl (fun a v => (a.record v).1) m := by
  unfold runRecords
  suffices h : ∀ (xs : List ℚ) (m : DriftMonitor) (acc : List (Option DriftAlertCtx)),
      (xs.foldl (fun acc v =>
        let r := acc.1.record v
        (r.1, acc.2 ++ [r.2])) (m, acc)).1 = xs.foldl (fun a v => (a.record v).1) m by
    exact h xs m []
  intro xs
  induction xs with
  | nil => intro m acc; rfl
  | cons x t ih => intro m acc; simpa using ih (m.record x).1 _

theorem runRecords_fst_fields (m : DriftMonitor) (xs : List ℚ) :
    (runRecords m xs).1 =
      { m with values := xs.foldl (dequeAppend m.window_size) m.values } := by
  rw [runRecords_fst]
  induction xs generalizing m with
  | nil => rfl
  | cons x t ih =>
      rw [List.foldl_cons, ih, record_fst]
      simp

theorem foldl_dequeAppend_lastN (W : ℕ) :
    ∀ (xs acc : List ℚ),
      xs.foldl (dequeAppend W) (lastN W acc) = lastN W (acc ++ xs) := by
  intro xs
  induction xs with
  | nil => intro acc; simp
  | cons x t ih =>
      intro acc
      simp only [List.foldl_cons, dequeAppend_lastN]
      simpa using ih (acc ++ [x])

theorem runRecords_append_one (m : DriftMonitor) (ys : List ℚ) (v : ℚ) :
    runRecords m (ys ++ [v]) =
      (((runRecords m ys).1.record v).1,
        (runRecords m ys).2 ++ [((runRecords m ys).1.record v).2]) := by
  unfold runRecords
  rw [List.foldl_append]
  rfl

theorem diffsQ_cons_cons (a b : ℚ) (t : List ℚ) :
    diffsQ (a :: b :: t) = |b - a| :: diffsQ (b :: t) := rfl

theorem diffsQ_length (l : List ℚ) : (diffsQ l).length = l.length - 1 := by
  unfold diffsQ
  rw [List.length_zipWith, List.length_tail]
  omega

theorem diffsQ_append_one (l : List ℚ) (hl : l ≠ []) (v : ℚ) :
    diffsQ (l ++ [v]) = diffsQ l ++ [|v - l.getLast hl|] := by
  induction l with
  | nil => exact absurd rfl hl
  | cons a t ih =>
      cases t with
      | nil => simp [diffsQ]
      | cons b t2 =>
          have h2 := ih (by simp)
          simp only [List.cons_append] at h2 ⊢
          rw [diffsQ_cons_cons, h2, diffsQ_cons_cons]
          simp [List.getLast]

theorem diffsQ_mem_nonneg (l : List ℚ) : ∀ y ∈ diffsQ l, 0 ≤ y := by
  induction l with
  | nil => simp [diffsQ]
  | cons a t ih =>
      cases t with
      | nil => simp [diffsQ]
      | cons b t2 =>
          intro y hy
          rw [diffsQ_cons_cons] at hy
          rcases List.mem_cons.1 hy with rfl | hy2
          · exact abs_nonneg _
          · exact ih y hy2

theorem diffsQ_drop (l : List ℚ) (k : ℕ) :
    diffsQ (l.drop k) = (diffsQ l).drop k := by
  unfold diffsQ
  have h1 : (l.drop k).tail = l.tail.drop k := by
    rw [List.tail_drop, List.drop_tail]
  rw [h1, List.drop_zipWith]

theorem foldl_max_le_iff (t : List ℚ) :
    ∀ (x c : ℚ), t.foldl max x ≤ c ↔ x ≤ c ∧ ∀ y ∈ t, y ≤ c := by
  induction t with
  | nil => simp
  | cons b t2 ih =>
      intro x c
      rw [List.foldl_cons, ih]
      simp only [max_le_iff, List.mem_cons]
      constructor
      · rintro ⟨⟨h1, h2⟩, h3⟩
        exact ⟨h1, fun y hy => by rcases hy with rfl | hy <;> [exact h2; exact h3 y hy]⟩
      · rintro ⟨h1, h2⟩
        exact ⟨⟨h1, h2 b (Or.inl rfl)⟩, fun y hy => h2 y (Or.inr hy)⟩

theorem maxQ_le_iff (l : List ℚ) (hl : l ≠ []) (c : ℚ) :
    maxQ l ≤ c ↔ ∀ y ∈ l, y ≤ c := by
  cases l with
  | nil => exact absurd rfl hl
  | cons x t =>
      show t.foldl max x ≤ c ↔ _
      rw [foldl_max_le_iff]
      simp

theorem meanQ_append_zero_le (ds : List ℚ) (hne : ds ≠ [])
    (h0 : ∀ y ∈ ds, 0 ≤ y) : meanQ (ds ++ [0]) ≤ meanQ ds := by
  unfold meanQ
  have hsum : (ds ++ [0]).sum = ds.sum := by simp
  have hlen : ((ds ++ [0]).length : ℚ) = (ds.length : ℚ) + 1 := by
    simp
  rw [hsum, hlen]
  have hpos : (0 : ℚ) < (ds.length : ℚ) := by
    have : 0 < ds.length := List.length_pos.2 hne
    exact_mod_cast this
  have hs : 0 ≤ ds.sum := List.sum_nonneg h0
  rw [div_le_div_iff₀ (by linarith) hpos]
  nlinarith

theorem meanQ_cons_zero_le (d : ℚ) (ds : List ℚ) (hd : 0 ≤ d) :
    meanQ (ds ++ [0]) ≤ meanQ (d :: ds) := by
  unfold meanQ
  have h1 : (ds ++ [0]).sum = ds.sum := by simp
  have h2 : ((ds ++ [0]).length : ℚ) = ((d :: ds).length : ℚ) := by simp
  rw [h1, h2]
  have hpos : (0 : ℚ) < ((d :: ds).length : ℚ) := by
    have : 0 < (d :: ds).length := by simp
    exact_mod_cast this
  have hle : ds.sum ≤ (d :: ds).sum := by
    simp only [List.sum_cons]; linarith
  exact (div_le_div_iff_of_pos_right hpos).2 hle

theorem record_snd_none_iff (m : DriftMonitor) (v : ℚ) :
    (m.record v).2 = none ↔
      (2 ≤ (dequeAppend m.window_size m.values v).length →
        meanQ (diffsQ (dequeAppend m.window_size m.values v)) ≤ m.mean_threshold ∧
        maxQ (diffsQ (dequeAppend m.window_size m.values v)) ≤ m.max_threshold) := by
  unfold DriftMonitor.record
  dsimp only
  split
  · rename_i h
    constructor
    · intro _ hlen
      exact absurd hlen (by omega)
    · intro _
      rfl
  · rename_i h
    split
    · rename_i h2
      constructor
      · intro hc
        exact Option.noConfusion hc
      · intro hr
        exfalso
        rcases hr (by omega) with ⟨h3, h4⟩
        rcases h2 with h2 | h2
        · exact absurd h3 (not_le.2 h2)
        · exact absurd h4 (not_le.2 h2)
    · rename_i h2
      push_neg at h2
      constructor
      · intro _ _
        exact h2
      · intro _
        rfl

theorem record_dup_no_alert (W : ℕ) (tm tx : ℚ) (vals : List ℚ) (v : ℚ)
    (htm : 0 ≤ tm) (htx : 0 ≤ tx) (hWlen : vals.length ≤ W)
    (hform : vals = [] ∨ ∃ zs, vals = zs ++ [v])
    (hprev : 2 ≤ vals.length →
      meanQ (diffsQ vals) ≤ tm ∧ maxQ (diffsQ vals) ≤ tx) :
    ((⟨W, tm, tx, vals⟩ : DriftMonitor).record v).2 = none := by
  rw [record_snd_none_iff]
  dsimp only
  intro hlen
  rcases hform with rfl | ⟨zs, rfl⟩
  · exfalso
    have hl : (dequeAppend W [] v).length ≤ 1 := by
      unfold dequeAppend
      simp [List.length_drop]
    omega
  · have hdne : (zs ++ [v]) ≠ [] := by simp
    have hlastv : (zs ++ [v]).getLast hdne = v := by
      simp [List.getLast_append]
    have hdiffs_app : diffsQ ((zs ++ [v]) ++ [v]) = diffsQ (zs ++ [v]) ++ [0] := by
      rw [diffsQ_append_one _ hdne, hlastv]
      simp
    have hnlen : (dequeAppend W (zs ++ [v]) v).length =
        ((zs ++ [v]).length + 1) - ((zs ++ [v]).length + 1 - W) := by
      unfold dequeAppend
      simp [List.length_drop]
    have hdiffs_new : diffsQ (dequeAppend W (zs ++ [v]) v) =
        (diffsQ (zs ++ [v]) ++ [0]).drop ((zs ++ [v]).length + 1 - W) := by
      unfold dequeAppend
      rw [diffsQ_drop, hdiffs_app]
    have hk1 : (zs ++ [v]).length + 1 - W ≤ 1 := by omega
    rcases Nat.le_one_iff_eq_zero_or_eq_one.1 hk1 with hk | hk
    · -- window not yet full: the appended duplicate contributes a zero diff
      rw [hdiffs_new, hk, List.drop_zero]
      rcases List.eq_nil_or_concat zs with rfl | ⟨zs2, b, hzs⟩
      · -- a single retained value: the new diff list is [0]
        have hz : diffsQ ([] ++ [v]) = [] := rfl
        rw [hz]
        constructor
        · simpa [meanQ] using htm
        · simpa [maxQ] using htx
      · -- at least two retained values: the last record's stats bound the new ones
        rw [List.concat_eq_append] at hzs
        subst hzs
        have hlen2 : 2 ≤ ((zs2 ++ [b]) ++ [v]).length := by simp
        rcases hprev hlen2 with ⟨hm, hx⟩
        have hdsne : diffsQ ((zs2 ++ [b]) ++ [v]) ≠ [] := by
          have hdl := diffsQ_length ((zs2 ++ [b]) ++ [v])
          intro hc
          rw [hc] at hdl
          simp only [List.length_nil, List.length_append, List.length_cons] at hdl
          omega
        constructor
        · exact (meanQ_append_zero_le _ hdsne (diffsQ_mem_nonneg _)).trans hm
        · rw [maxQ_le_iff _ (by simp)]
          intro y hy
          rcases List.mem_append.1 hy with hy | hy
          · exact ((maxQ_le_iff _ hdsne tx).1 hx) y hy
          · simp only [List.mem_singleton] at hy
            subst hy
            exact htx
    · -- window full: the oldest value is evicted, dropping its diff
      have hn2 : 2 ≤ (zs ++ [v]).length := by
        have h5 := hlen
        rw [hnlen] at h5
        omega
      rcases hprev hn2 with ⟨hm, hx⟩
      have hdsne : diffsQ (zs ++ [v]) ≠ [] := by
        have hdl := diffsQ_length (zs ++ [v])
        have hn2' := hn2
        intro hc
        rw [hc] at hdl
        simp only [List.length_nil, List.length_append, List.length_cons] at hdl hn2'
        omega
      obtain ⟨d, ds', hds⟩ := List.exists_cons_of_ne_nil hdsne
      have hdrop : (diffsQ (zs ++ [v]) ++ [0]).drop 1 = ds' ++ [0] := by
        rw [hds]
        rfl
      rw [hdiffs_new, hk, hdrop]
      have hd0 : 0 ≤ d :=
        diffsQ_mem_nonneg _ d (by rw [hds]; exact List.mem_cons_self _ _)
      constructor
      · have h1 : meanQ (ds' ++ [0]) ≤ meanQ (d :: ds') := meanQ_cons_zero_le d ds' hd0
        rw [← hds] at h1
        exact h1.trans hm
      · rw [maxQ_le_iff _ (by simp)]
        intro y hy
        rcases List.mem_append.1 hy with hy | hy
        · exact ((maxQ_le_iff _ hdsne tx).1 hx) y
            (by rw [hds]; exact List.mem_cons_of_mem _ hy)
        · simp only [List.mem_singleton] at hy
          subst hy
          exact htx

/-! ## Claims about the drift monitor -/

/-- C10: for every `DriftMonitor` (window size `W`) and every sequence of
`k` `record` calls — including calls that raised a `DriftAlert`, since the
deque append precedes the threshold check and is not rolled back —
`current_window` equals the last `min(k, W)` recorded values in order. -/
theorem drift_window_retains_last_values (W : ℕ) (tm tx : ℚ) (xs : List ℚ) :
    ((runRecords ⟨W, tm, tx, []⟩ xs).1).current_window =
      xs.drop (xs.length - W) := by
  unfold DriftMonitor.current_window
  rw [runRecords_fst_fields]
  dsimp only
  simpa [lastN] using foldl_dequeAppend_lastN W xs []

/-- C6 counterexample: feeding the ρ sequence
`[0.10, 0.15, 0.22, 0.35, 0.47]` into a default `DriftMonitor`
(window 10, thresholds 0.05 / 0.10), the **third** record already raises a
`DriftAlert` (diffs `[0.05, 0.07]`, `mean_drift = 0.06 > 0.05`) — the claim
that no record before the fifth raises is false. -/
theorem drift_s3_alert_on_third_record :
    ((runRecords DriftMonitor.mkDefault
        [1/10, 3/20, 11/50, 7/20, 47/100]).2.getD 2 none).isSome = true := by
  norm_num [runRecords, DriftMonitor.record, DriftMonitor.mkDefault,
    dequeAppend, diffsQ, meanQ, maxQ, abs, List.getD]

/-- C6 (amended): feeding `[0.10, 0.15, 0.22, 0.35, 0.47]` into a default
`DriftMonitor`, records 1–2 do not raise and records 3, 4 and 5 all raise,
with `mean_drift` 0.06, 1/12 (= 0.0833…) and 0.0925 respectively; the
final record's alert indeed has `mean_drift = 0.0925` (= 37/400). -/
theorem drift_s3_alert_sequence :
    (runRecords DriftMonitor.mkDefault [1/10, 3/20, 11/50, 7/20, 47/100]).2 =
      [none, none,
        some ⟨3/50, 7/100, [1/10, 3/20, 11/50]⟩,
        some ⟨1/12, 13/100, [1/10, 3/20, 11/50, 7/20]⟩,
        some ⟨37/400, 13/100, [1/10, 3/20, 11/50, 7/20, 47/100]⟩] := by
  norm_num [runRecords, DriftMonitor.record, DriftMonitor.mkDefault,
    dequeAppend, diffsQ, meanQ, maxQ, abs]

/-- C7 counterexample: the claim fails for a constructible monitor with a
negative threshold: with `window_size = 2` and `mean_threshold = -1`, one
`record(0.5)` call raises nothing (a single sample computes no drift), yet
recording `0.5` again raises — the zero drift of the duplicate exceeds the
negative threshold. -/
theorem drift_negative_threshold_duplicate_alerts :
    (runRecords ⟨2, -1, 1/10, []⟩ [1/2]).2 = [none] ∧
      ((runRecords ⟨2, -1, 1/10, []⟩ [1/2]).1.record (1/2)).2 ≠ none := by
  norm_num [runRecords, DriftMonitor.record, dequeAppend, diffsQ, meanQ,
    maxQ, abs]
  simp

/-- C7 (amended): for every `DriftMonitor` with **nonnegative** thresholds,
if a sequence of `record` calls raised no `DriftAlert`, one further
`record` of a value equal to the last recorded value does not raise. -/
theorem drift_record_duplicate_no_alert (W : ℕ) (tm tx : ℚ) (xs : List ℚ)
    (htm : 0 ≤ tm) (htx : 0 ≤ tx) (hxs : xs ≠ [])
    (hflags : ∀ f ∈ (runRecords ⟨W, tm, tx, []⟩ xs).2, f = none) :
    ((runRecords ⟨W, tm, tx, []⟩ xs).1.record (xs.getLast hxs)).2 = none := by
  rcases List.eq_nil_or_concat xs with rfl | ⟨ys, v, hys⟩
  · exact absurd rfl hxs
  · rw [List.concat_eq_append] at hys
    subst hys
    have hlast : (ys ++ [v]).getLast hxs = v := by
      simp [List.getLast_append]
    rw [hlast]
    have hMfields : (runRecords ⟨W, tm, tx, []⟩ (ys ++ [v])).1 =
        ⟨W, tm, tx, lastN W (ys ++ [v])⟩ := by
      rw [runRecords_fst_fields]
      dsimp only
      congr 1
      simpa [lastN] using foldl_dequeAppend_lastN W (ys ++ [v]) []
    rw [hMfields]
    refine record_dup_no_alert W tm tx _ v htm htx ?_ ?_ ?_
    · unfold lastN
      simp only [List.length_drop]
      omega
    · unfold lastN
      by_cases hc : (ys ++ [v]).length - W ≤ ys.length
      · right
        exact ⟨ys.drop _, List.drop_append_of_le_length hc⟩
      · left
        apply List.drop_eq_nil_of_le
        simp only [List.length_append, List.length_cons, List.length_nil] at hc ⊢
        omega
    · intro hlen2
      have happ := runRecords_append_one ⟨W, tm, tx, []⟩ ys v
      have hflag : ((runRecords ⟨W, tm, tx, []⟩ ys).1.record v).2 = none := by
        apply hflags
        rw [happ]
        simp
      have hPfields : (runRecords ⟨W, tm, tx, []⟩ ys).1 =
          ⟨W, tm, tx, lastN W ys⟩ := by
        rw [runRecords_fst_fields]
        dsimp only
        congr 1
        simpa [lastN] using foldl_dequeAppend_lastN W ys []
      rw [hPfields, record_snd_none_iff] at hflag
      dsimp only at hflag
      rw [dequeAppend_lastN W ys v] at hflag
      exact hflag hlen2

/-- Witness for the amended C7 theorem at a concrete monitor and prefix. -/
theorem drift_record_duplicate_no_alert_witness :
    ((runRecords ⟨3, 1/20, 1/10, []⟩ [1/2, 51/100]).1.record (51/100)).2 =
      none :=
  drift_record_duplicate_no_alert 3 (1/20) (1/10) [1/2, 51/100]
    (by norm_num) (by norm_num) (by simp)
    (by
      have h : (runRecords ⟨3, 1/20, 1/10, []⟩ [1/2, 51/100]).2 =
          [none, none] := by
        norm_num [runRecords, DriftMonitor.record, dequeAppend, diffsQ,
          meanQ, maxQ, abs]
      rw [h]
      simp)

/-! ## Claims about the config store, the plan models and the plan prover -/

/-- C5: when the merged update fails validation (`rho_max` outside `(0,1)`
or `energy_multiplier` outside `[1,4]`), `update_config` raises and changes
nothing: `get_config` afterwards equals `get_config` before, and the
persisted file is unchanged byte-for-byte. -/
theorem config_update_invalid_is_noop (st : StoreState) (u : ConfigUpdates)
    (h : ¬ (0 < (applyUpdates st.config u).rho_max ∧
            (applyUpdates st.config u).rho_max < 1) ∨
         ¬ (1 ≤ (applyUpdates st.config u).energy_multiplier ∧
            (applyUpdates st.config u).energy_multiplier ≤ 4)) :
    get_config (update_config st u).1 = get_config st ∧
      (update_config st u).1.fileContents = st.fileContents ∧
      ∃ e, (update_config st u).2 = Except.error e := by
  have hv : configValid (applyUpdates st.config u) = false := by
    cases hcv : configValid (applyUpdates st.config u) with
    | false => rfl
    | true =>
        exfalso
        simp only [configValid, Bool.and_eq_true, decide_eq_true_eq] at hcv
        tauto
  unfold update_config Config.validate
  simp only [hv]
  simp [get_config]

/-- Witness for the C5 theorem: updating `rho_max` to 1.5 from the default
configuration fails validation and leaves state and file untouched. -/
theorem config_update_invalid_is_noop_witness :
    get_config (update_config ⟨⟨9/10, 2⟩, yamlDump ⟨9/10, 2⟩⟩
        ⟨some (3/2), none⟩).1 = get_config ⟨⟨9/10, 2⟩, yamlDump ⟨9/10, 2⟩⟩ ∧
      (update_config ⟨⟨9/10, 2⟩, yamlDump ⟨9/10, 2⟩⟩
        ⟨some (3/2), none⟩).1.fileContents = yamlDump ⟨9/10, 2⟩ ∧
      ∃ e, (update_config ⟨⟨9/10, 2⟩, yamlDump ⟨9/10, 2⟩⟩
        ⟨some (3/2), none⟩).2 = Except.error e :=
  config_update_invalid_is_noop ⟨⟨9/10, 2⟩, yamlDump ⟨9/10, 2⟩⟩
    ⟨some (3/2), none⟩ (by left; norm_num [applyUpdates])

/-- C8 counterexample: the `Plan` model of `agent/core/plan_models.py` —
the one `verify_plan` and the operator API consume — accepts a plan whose
steps list is empty (it declares `steps: List[Step]` with no non-emptiness
constraint, and has no `name` or `tokens` fields at all). -/
theorem core_plan_accepts_empty_steps :
    corePlanValidate [] = Except.ok ⟨[]⟩ := rfl

/-- C8 (amended): the `Plan` model of `raft/agent/core/plan_models.py` is
accepted only if its name is non-empty after trimming, its token budget
(when present) is nonnegative, and its steps list is non-empty; the
duplicate core model accepts an empty steps list. -/
theorem raft_plan_validation_necessary (name : String) (tokens : Option ℤ)
    (steps : List Step) (p : RaftPlan)
    (h : raftPlanValidate name tokens steps = Except.ok p) :
    pyStrip name ≠ "" ∧ (∀ t ∈ tokens, 0 ≤ t) ∧ steps ≠ [] := by
  unfold raftPlanValidate at h
  by_cases h1 : pyStrip name = ""
  · rw [if_pos h1] at h
    exact absurd h (by simp)
  · rw [if_neg h1] at h
    by_cases h2 : Option.any (fun t => decide (t < 0)) tokens = true
    · rw [if_pos h2] at h
      exact absurd h (by simp)
    · rw [if_neg h2] at h
      by_cases h3 : steps.isEmpty = true
      · rw [if_pos h3] at h
        exact absurd h (by simp)
      · refine ⟨h1, ?_, fun hc => h3 (by simp [hc])⟩
        intro t ht
        cases tokens with
        | none => simp at ht
        | some t2 =>
            simp only [Option.mem_def, Option.some.injEq] at ht
            subst ht
            simp only [Option.any_some, decide_eq_true_eq] at h2
            omega

/-- Witness for the amended C8 theorem at a concrete accepted plan. -/
theorem raft_plan_validation_necessary_witness :
    pyStrip "p" ≠ "" ∧ (∀ t ∈ (some (5 : ℤ)), 0 ≤ t) ∧
      ([Step.run "governor.one_cycle"] : List Step) ≠ [] :=
  raft_plan_validation_necessary "p" (some 5) [Step.run "governor.one_cycle"]
    ⟨"p", some 5, [Step.run "governor.one_cycle"]⟩ rfl

/-- C4 (the code defect, exercised): `verify_plan` raises `AttributeError`
on **every** plan — validated or not — because its cache probe calls
`smt_verifier._get_redis()` and that module defines no such attribute (the
test suite patches it in with `create=True`).  It therefore never returns
`(true, none)`. -/
theorem verify_plan_always_raises (steps : List Step) :
    verify_plan ⟨steps⟩ = Except.error
      "AttributeError: module agent.core.smt_verifier has no attribute _get_redis" :=
  rfl

/-! ## Claims about the spectral estimator -/

theorem Tensor.one_le_dim (t : Tensor) : 1 ≤ t.dim := by
  cases t with
  | base _ => simp [Tensor.dim]
  | stack ts => cases ts <;> simp [Tensor.dim]

/-- C9 counterexample: a rank-2 tensor with `batch_mode=False` does *not*
raise — `batch_mode or x.dim() > 1` routes it into the batch path, which
estimates each row and returns the mean. -/
theorem spectral_rank2_nonbatch_no_error :
    Tensor.dim (.stack [.base [1, 2], .base [3, 4]]) = 2 ∧
      (estimate_spectral_radius demoSingleEstimator
        (.stack [.base [1, 2], .base [3, 4]]) false).isOk = true := by
  constructor
  · rfl
  · rfl

/-- C9 (amended): with `batch_mode=False`, a rank-2 input is processed as
a batch (per-row single estimates, arithmetic mean); only inputs of rank
at least 3 raise, because each sample along the leading axis is then still
not 1-D and `_estimate_single_spectral_radius` rejects it. -/
theorem spectral_nonbatch_rank_dispatch :
    (∀ (single : List ℚ → ℚ) (xs : List ℚ) (xss : List (List ℚ)),
      estimate_spectral_radius single (.stack ((xs :: xss).map Tensor.base))
          false = .ok (batchMean ((xs :: xss).map single))) ∧
    (∀ (single : List ℚ → ℚ) (ts rest : List Tensor),
      estimate_spectral_radius single (.stack (.stack ts :: rest)) false =
        .error "Single input must be 1D") := by
  constructor
  · intro single xs xss
    have hmapM : ∀ (l : List (List ℚ)),
        (l.map Tensor.base).mapM (estimate_single_spectral_radius single) =
          Except.ok (l.map single) := by
      intro l
      induction l with
      | nil => rfl
      | cons a t ih =>
          simp only [List.map_cons, List.mapM_cons, ih,
            estimate_single_spectral_radius]
          rfl
    show estimate_spectral_radius _ _ _ = _
    unfold estimate_spectral_radius
    simp only [List.map_cons, Tensor.dim, Bool.false_or, Nat.lt_irrefl]
    norm_num
    show batchMean <$>
        List.mapM (estimate_single_spectral_radius single)
          ((xs :: xss).map Tensor.base) = _
    rw [hmapM (xs :: xss)]
    rfl
  · intro single ts rest
    unfold estimate_spectral_radius
    have hd2 : 2 ≤ Tensor.dim (.stack ts) := by
      cases ts with
      | nil => simp [Tensor.dim]
      | cons u t2 =>
          have hu := Tensor.one_le_dim u
          simp only [Tensor.dim]
          omega
    have hb : (false || decide
        (1 < Tensor.dim (.stack (.stack ts :: rest)))) = true := by
      simp only [Bool.false_or, decide_eq_true_eq]
      show 1 < 1 + Tensor.dim (.stack ts)
      omega
    have hne : ¬ Tensor.dim (.stack (.stack ts :: rest)) = 1 := by
      show ¬ (1 + Tensor.dim (.stack ts) = 1)
      omega
    rw [hb]
    simp only [if_true]
    rw [if_neg hne]
    simp only [List.mapM_cons, estimate_single_spectral_radius]
    rfl

/-! ## Claims about the diff safety builder -/

/-- C3 counterexample: for the diff `+x = 1` no violation is found
(no forbidden pattern, no rename), yet `build_smt_diff` returns
`(assert true)` — not `(assert false)` as claimed.  The source's polarity
is the reverse of the claim's. -/
theorem build_smt_diff_no_violation_yields_true :
    build_smt_diff "+x = 1" = "(assert true)" ∧
      findForbiddenViolations (parseUnifiedDiff "+x = 1") = [] ∧
      findGoalPreservationViolations (parseUnifiedDiff "+x = 1") = [] :=
  ⟨rfl, rfl, rfl⟩

/-- C3 (amended): `build_smt_diff` returns only the two obligations
`(assert true)` and `(assert false)`, and returns `(assert false)` exactly
when a violation — a forbidden pattern in an added line, or a
signature-changing rename — is found (a blank diff has no violations and
yields `(assert true)`). -/
theorem build_smt_diff_polarity (d : String) :
    (build_smt_diff d = "(assert false)" ∨ build_smt_diff d = "(assert true)") ∧
      (build_smt_diff d = "(assert false)" ↔
        (findForbiddenViolations (parseUnifiedDiff d) ≠ [] ∨
          findGoalPreservationViolations (parseUnifiedDiff d) ≠ [])) := by
  unfold build_smt_diff SMTDiffBuilder.build_smt_formula
  by_cases hb : pyStrip d = ""
  · rw [if_pos hb]
    have hp : parseUnifiedDiff d = ⟨[], [], [], [], []⟩ := by
      unfold parseUnifiedDiff
      rw [if_pos hb]
    refine ⟨Or.inr rfl, ?_, ?_⟩
    · intro hc
      exact absurd hc (by decide)
    · intro hv
      exfalso
      rw [hp] at hv
      rcases hv with hv | hv
      · exact hv rfl
      · exact hv rfl
  · rw [if_neg hb]
    dsimp only
    split
    · rename_i hv
      refine ⟨Or.inl rfl, fun _ => ?_, fun _ => rfl⟩
      rcases hv with hv | hv
      · left
        intro hc
        rw [hc] at hv
        simp at hv
      · right
        intro hc
        rw [hc] at hv
        simp at hv
    · rename_i hv
      refine ⟨Or.inr rfl, fun hc => absurd hc (by decide), fun hvv => ?_⟩
      exfalso
      apply hv
      rcases hvv with hvv | hvv
      · left
        simpa using hvv
      · right
        simpa using hvv

/-! ## Claims about the SMT verifier and the governor -/

/-- C2 counterexample: on the unsatisfiable obligation `(assert false)`
(cache miss), the solver result is UNSAT and `verify` returns the *failed*
verdict `result: False` with reason `formula_unsatisfiable` — not `Passed`
as claimed.  The source's polarity (documented in its own docstring and
tests) is the reverse of the claim's. -/
theorem verify_unsat_reports_failure :
    groundEnv.solve "(assert false)" = .ok .unsat ∧
      verify groundEnv "(assert false)" "h" =
        .ok (resultDict false (reasonDict "formula_unsatisfiable")) :=
  ⟨rfl, rfl⟩

/-- C2 (amended): on a cache miss, `verify` returns the passing verdict
(`result: True`) exactly when the solver result is SAT — attaching the
model extracted by iterating its declarations when any exist — and the
failing verdict when the result is UNSAT (reason `formula_unsatisfiable`)
or UNKNOWN (reason `solver_unknown`). -/
theorem verify_maps_solver_results (env : VerifyEnv) (diff ch : String)
    (r : Z3CheckResult) (hmiss : env.cache (cacheKey env diff ch) = none)
    (hsolve : env.solve diff = .ok r) :
    verify env diff ch = .ok (verdictOfCheck r) := by
  unfold verify
  dsimp only
  rw [hmiss]
  cases r with
  | sat model =>
      rw [hsolve]
      unfold verdictOfCheck
      dsimp only
      split <;> simp_all
  | unsat =>
      rw [hsolve]
      rfl
  | unknown =>
      rw [hsolve]
      rfl

/-- Witness for the amended C2 theorem: `(assert true)` is SAT with an
empty model and verifies as passing. -/
theorem verify_maps_solver_results_witness :
    verify groundEnv "(assert true)" "h" = .ok (resultDict true .pyNone) :=
  verify_maps_solver_results groundEnv "(assert true)" "h" (.sat []) rfl rfl

/-- C1 (the code defect, exercised): `run_one_cycle` tests the dict that
`verify` returns with `if ok:` — Python truthiness — and every value
`verify` can return is a non-empty dict, hence truthy, so the proof-fail
branch is unreachable.  Concretely, for the proposed diff `+eval('x')` the
obligation is `(assert false)`, `verify` reports the failed verdict
`result: False`, and the governor still runs the spectral, drift and
energy stages, emits `cycle‑complete` (and no `proof‑fail` event), and
returns true. -/
theorem governor_truthy_dict_disables_proof_gate :
    (∀ (env : VerifyEnv) (d c : String) (v : PyVal),
      verify env d c = Except.ok v → pyTruthy v = true) ∧
    verify groundEnv (build_smt_diff "+eval('x')") "charterhash" =
      .ok (resultDict false (reasonDict "formula_unsatisfiable")) ∧
    (run_one_cycle groundEnv "+eval('x')" "charterhash" (1/2)
        DriftMonitor.mkDefault false).events.map Prod.fst = ["cycle‑complete"] ∧
    (run_one_cycle groundEnv "+eval('x')" "charterhash" (1/2)
        DriftMonitor.mkDefault false).stages =
      ["proof-gate", "spectral", "drift", "energy", "commit"] ∧
    (run_one_cycle groundEnv "+eval('x')" "charterhash" (1/2)
        DriftMonitor.mkDefault false).ret = .ok true := by
  have htruthy : ∀ (env : VerifyEnv) (d c : String) (v : PyVal),
      verify env d c = Except.ok v → pyTruthy v = true := by
    intro env d c v hv
    unfold verify at hv
    dsimp only at hv
    repeat' split at hv
    all_goals
      first
        | exact Except.noConfusion hv
        | (injection hv with h5; subst h5; rfl)
  have hverify : verify groundEnv (build_smt_diff "+eval('x')") "charterhash" =
      .ok (resultDict false (reasonDict "formula_unsatisfiable")) := rfl
  have hrun : run_one_cycle groundEnv "+eval('x')" "charterhash" (1/2)
      DriftMonitor.mkDefault false =
      ⟨[("cycle‑complete", .pyDict [("rho", .pyRat (1/2)),
          ("charter", .pyStr ⟨"charterhash".data.take 8⟩)])],
        ["proof-gate", "spectral", "drift", "energy", "commit"],
        ⟨10, 1/20, 1/10, [1/2]⟩, .ok true⟩ := by
    unfold run_one_cycle
    dsimp only
    rw [hverify]
    norm_num [pyTruthy, resultDict, reasonDict, DriftMonitor.record,
      DriftMonitor.mkDefault, dequeAppend, diffsQ, meanQ, maxQ,
      MAX_SPECTRAL_RADIUS]
  exact ⟨htruthy, hverify, by rw [hrun]; rfl, by rw [hrun], by rw [hrun]⟩
